import Mathlib

/-!
Verification of the `sipnet` transport multiplexer (`listen.go`).

The Go file defines a `Listener` that accepts SIP traffic over TCP and UDP,
delivers parsed requests through an unbuffered channel, deduplicates
retransmissions by Via branch identifier with a 30-second retention window
swept every 10 seconds by `branchJanitor`, and tears everything down through
`Close`, which both transport loops invoke via `defer` when they exit.

The embedding below is a sequential shallow embedding:
  - machine state (the listener's fields, the two OS sockets) is explicit;
  - the unbuffered request channel is a queue (`List requestPackage`);
  - `time.Now()` values are `Nat` arguments threaded from the outside;
  - external collaborators not present in the repository source
    (`ParseVia`, `registerTCPConn`, `getUDPConnFromPool`) are either
    parameters (`Codec`) or modelled from the spec where a claim needs
    their behaviour.
-/

namespace Sipnet

/-- Errors of the embedding.  `errClosed` and `errInvalidBranch` are the two
sentinel errors declared at the top of `listen.go`.  `errUseClosed` stands for
the error the Go `net` package returns when `Close` is called on an
already-closed socket ("use of closed network connection").  `errTransport n`
stands for an arbitrary distinct transport/codec error value. -/
inductive SipError where
  | errClosed
  | errInvalidBranch
  | errUseClosed
  | errTransport (n : Nat)
deriving DecidableEq, Repr

/-- Result of `ParseVia`: the parsed Via header, of which `AcceptRequest` only
uses the argument list (`via.Arguments`). -/
structure Via where
  arguments : List (String × String)
deriving DecidableEq, Repr

/-- `url.Values.Get` / `header.Get` semantics: the value of the first pair
with the given key, or the empty string when absent. -/
def argsGet (args : List (String × String)) (key : String) : String :=
  match args.find? (fun p => p.1 == key) with
  | some p => p.2
  | none => ""

/-- A parsed SIP request; `AcceptRequest` only reads its headers. -/
structure Request where
  headers : List (String × String)
deriving DecidableEq, Repr

/-- `resp.req.Header.Get(k)` from the Go code. -/
def Request.headerGet (r : Request) (k : String) : String :=
  argsGet r.headers k

/-- The `requestPackage` struct sent over `requestChannel`.  `conn` is an
abstract connection identity (`*Conn` pointer); `none` models a nil pointer,
likewise for `req`. -/
structure requestPackage where
  conn : Option Nat
  req : Option Request
  err : Option SipError
deriving DecidableEq, Repr

/-- The external message codec interface the core needs: `ParseVia(string)`.
`ParseVia` is not part of the repository source under verification, so it is
a parameter of the embedding. -/
structure Codec where
  parseVia : String → Except SipError Via

/-- `String.take` over the character list (Go `branch[:7]` on ASCII data). -/
def strTake (s : String) (n : Nat) : String :=
  String.mk (s.data.take n)

/-- The branch validation of `AcceptRequest`:
`branch == "" || len(branch) < 8 || branch[:7] != "z9hG4bK"`. -/
def branchInvalid (branch : String) : Bool :=
  branch == "" || branch.length < 8 || strTake branch 7 != "z9hG4bK"

/-- Sockets owned by the listener, together with the outcome the operating
system will report for their first close.  A socket close releases the
descriptor even when it reports an error; closing an already-closed socket
reports `errUseClosed` (Go `net` semantics). -/
structure Sockets where
  tcpOpen : Bool
  udpOpen : Bool
  tcpCloseErr : Option SipError
  udpCloseErr : Option SipError
deriving DecidableEq, Repr

/-- `l.tcpListener.Close()`. -/
def closeTCP (s : Sockets) : Option SipError × Sockets :=
  if s.tcpOpen then (s.tcpCloseErr, { s with tcpOpen := false })
  else (some .errUseClosed, s)

/-- `l.udpListener.Close()`. -/
def closeUDP (s : Sockets) : Option SipError × Sockets :=
  if s.udpOpen then (s.udpCloseErr, { s with udpOpen := false })
  else (some .errUseClosed, s)

/-- The `Listener` struct.  Socket handles are abstract `Nat` identities.
Maps are association lists; `receivedBranches` maps a branch string to the
`time.Now()` recorded when it was first delivered.  `branchMutex`,
`udpPool` and `udpPoolMutex` use `Option` so that a Go nil (zero value of a
pointer or map field left out of a struct literal) is `none`; their defaults
are the Go zero values. -/
structure Listener where
  tcpListener : Nat
  udpListener : Nat
  closed : Bool
  requestChannel : List requestPackage
  receivedBranches : List (String × Nat)
  branchMutex : Option Unit := none
  udpPool : Option (List (Nat × Nat)) := none
  udpPoolMutex : Option Unit := none
deriving DecidableEq, Repr

/-- Outcomes of the three system calls `Listen` performs, in order:
`net.Listen("tcp", addr)`, `net.ResolveUDPAddr("udp", addr)`,
`net.ListenUDP("udp", udpAddr)`. -/
structure NetEnv where
  tcpListen : Except SipError Nat
  resolveUDPAddr : Except SipError Nat
  listenUDP : Except SipError Nat
deriving Repr

/-- `Listen`: on any failure the partially-opened resources are closed and the
error returned; on success the `Listener` literal is built exactly as in the
source — `udpPool` and `udpPoolMutex` do not appear in the literal, so they
keep their zero values. -/
def Listen (env : NetEnv) : Except SipError Listener :=
  match env.tcpListen with
  | .error e => .error e
  | .ok tcp =>
    match env.resolveUDPAddr with
    | .error e => .error e
    | .ok _ =>
      match env.listenUDP with
      | .error e => .error e
      | .ok udp =>
        .ok { tcpListener := tcp
              udpListener := udp
              closed := false
              requestChannel := []
              receivedBranches := []
              branchMutex := some () }

/-- `Close`: set the closed flag, close the TCP socket, close the UDP socket
(always attempted, even when the TCP close failed), drain `requestChannel`,
and return the TCP close error if non-nil, otherwise the UDP close error. -/
def Close (l : Listener) (s : Sockets) : Option SipError × Listener × Sockets :=
  match closeTCP s with
  | (some e, s1) =>
    match closeUDP s1 with
    | (_, s2) => (some e, { l with closed := true, requestChannel := [] }, s2)
  | (none, s1) =>
    match closeUDP s1 with
    | (e2, s2) => (e2, { l with closed := true, requestChannel := [] }, s2)

/-- What one call to `AcceptRequest` does.  `ret` is a `return` with the Go
triple `(req, conn, err)`; `blocked` means the loop reached the channel
receive with nothing queued (the call blocks); `nilDeref` marks the state the
Go code would panic in (a package with `err == nil` but `req == nil`), which
no producer in the source ever sends. -/
inductive AcceptResult where
  | ret (req : Option Request) (conn : Option Nat) (err : Option SipError)
  | blocked
  | nilDeref
deriving DecidableEq, Repr

/-- The loop body of `AcceptRequest`, with the channel as an explicit queue.
Each iteration: check `l.closed`; receive a package; on a package error
return it as-is; otherwise parse the Via header, validate the branch, and
either return the request (recording the branch with the current time) or —
when the branch is already recorded — drop the package and continue the
loop.  Returns the result, the unconsumed queue, and the branch cache. -/
def acceptLoop (codec : Codec) (now : Nat) (closed : Bool) :
    List requestPackage → List (String × Nat) →
      AcceptResult × List requestPackage × List (String × Nat)
  | [], branches =>
    if closed then (.ret none none (some .errClosed), [], branches)
    else (.blocked, [], branches)
  | pkg :: rest, branches =>
    if closed then (.ret none none (some .errClosed), pkg :: rest, branches)
    else
        match pkg.err with
        | some e => (.ret pkg.req pkg.conn (some e), rest, branches)
        | none =>
          match pkg.req with
          | none => (.nilDeref, rest, branches)
          | some r =>
            match codec.parseVia (r.headerGet "Via") with
            | .error e => (.ret (some r) pkg.conn (some e), rest, branches)
            | .ok via =>
              if branchInvalid (argsGet via.arguments "branch") then
                (.ret (some r) pkg.conn (some .errInvalidBranch), rest, branches)
              else if (branches.find? (fun p =>
                  p.1 == argsGet via.arguments "branch")).isSome then
                acceptLoop codec now closed rest branches
              else
                (.ret (some r) pkg.conn none, rest,
                  (argsGet via.arguments "branch", now) :: branches)

/-- Fixture: a request whose Via header carries the well-formed branch
`z9hG4bK-abc123`. -/
def rB : Request := { headers := [("Via", "branch=z9hG4bK-abc123")] }

/-- Fixture: the parsed Via of `rB` under `specCodec`. -/
def viaB : Via := { arguments := [("branch", "z9hG4bK-abc123")] }

/-- Fixture: `rB` delivered from connection `0` with no error. -/
def pkgB : requestPackage := { conn := some 0, req := some rB, err := none }

/-- Fixture: a request with no headers at all, hence a missing Via. -/
def rNoVia : Request := { headers := [] }

/-- Fixture: a freshly bound listener, exactly as `Listen` constructs it. -/
def l0 : Listener :=
  { tcpListener := 0
    udpListener := 1
    closed := false
    requestChannel := []
    receivedBranches := []
    branchMutex := some () }

/-- Fixture: two freshly opened sockets whose first close will succeed. -/
def s0 : Sockets :=
  { tcpOpen := true, udpOpen := true, tcpCloseErr := none, udpCloseErr := none }

/-- Fixture: a network environment in which all three system calls of
`Listen` succeed. -/
def env0 : NetEnv :=
  { tcpListen := .ok 0, resolveUDPAddr := .ok 7, listenUDP := .ok 1 }

/-- Fixture: two open sockets whose first close will each report an error. -/
def sBothFail : Sockets :=
  { tcpOpen := true
    udpOpen := true
    tcpCloseErr := some (.errTransport 7)
    udpCloseErr := some (.errTransport 8) }

/-- The condition under which `AcceptRequest` surfaces a request with an
invalid-branch failure: the Via header fails to parse, or the branch
argument is absent, shorter than 8 characters, or lacks the magic cookie. -/
def invalidBranchReq (codec : Codec) (r : Request) : Bool :=
  match codec.parseVia (r.headerGet "Via") with
  | .error _ => true
  | .ok via => branchInvalid (argsGet via.arguments "branch")

/-- `AcceptRequest` on a listener state: run the loop on the listener's
channel queue and branch cache and write the survivors back. -/
def AcceptRequest (codec : Codec) (now : Nat) (l : Listener) :
    AcceptResult × Listener :=
  match acceptLoop codec now l.closed l.requestChannel l.receivedBranches with
  | (res, q, b) => (res, { l with requestChannel := q, receivedBranches := b })

/-- One pass of the `branchJanitor` sweep at time `now`: delete every entry
whose age exceeds 30 seconds (`time.Now().Sub(t) > 30*time.Second`). -/
def sweep (now : Nat) (branches : List (String × Nat)) : List (String × Nat) :=
  branches.filter (fun p => now - p.2 ≤ 30)

/-- A sequence of janitor passes. -/
def sweepAll (ts : List Nat) (branches : List (String × Nat)) :
    List (String × Nat) :=
  ts.foldl (fun b t => sweep t b) branches

/-- A timed event of the running system, as seen by the branch cache:
either a `branchJanitor` pass at time `now` (the janitor wakes every 10
seconds), or a package arriving on the channel at time `now` and being
consumed by an `AcceptRequest` call at that time. -/
inductive Event where
  | tick (now : Nat)
  | arrive (now : Nat) (pkg : requestPackage)
deriving DecidableEq, Repr

/-- Run a timed event trace against the branch cache of an open listener,
returning the final cache and, for every `arrive` event, the time and the
result of the `AcceptRequest` call that consumed it. -/
def runEvents (codec : Codec) : List Event → List (String × Nat) →
    List (String × Nat) × List (Nat × AcceptResult)
  | [], branches => (branches, [])
  | .tick now :: rest, branches => runEvents codec rest (sweep now branches)
  | .arrive now pkg :: rest, branches =>
    ((runEvents codec rest (acceptLoop codec now false [pkg] branches).2.2).1,
      (now, (acceptLoop codec now false [pkg] branches).1) ::
        (runEvents codec rest (acceptLoop codec now false [pkg] branches).2.2).2)

/-- Split a character list on a separator character. -/
def splitChars (sep : Char) : List Char → List (List Char)
  | [] => [[]]
  | c :: cs =>
    match splitChars sep cs with
    | [] => [[c]]
    | g :: gs => if c == sep then [] :: g :: gs else (c :: g) :: gs

/-- Key=value pairs of a semicolon-separated argument string; parts without
exactly one `=` carry no argument. -/
def parseArgs (s : String) : List (String × String) :=
  (splitChars ';' s.data).filterMap (fun part =>
    match splitChars '=' part with
    | [k, v] => some (String.mk k, String.mk v)
    | _ => none)

/-- Modelled from the spec: `ParseVia` belongs to the message codec, which is
outside the repository source under verification; the spec fixes only its
interface `ParseVia(string) -> (Via, error)` and states that a missing or
malformed Via header is surfaced as the same distinguished "invalid branch
parameter" failure as a bad branch argument.  We model the failure case as
the missing (empty) header and read the Via arguments as `k=v` pairs
separated by `;`. -/
def specCodec : Codec :=
  { parseVia := fun s =>
      if s == "" then .error .errInvalidBranch
      else .ok { arguments := parseArgs s } }

/-- One outcome of `listener.tcpListener.Accept()`: a new connection
(abstract identity) or a failure. -/
inductive TCPEvent where
  | conn (c : Nat)
  | fail (e : SipError)
deriving DecidableEq, Repr

/-- One outcome of `listener.udpListener.ReadFrom(data)`: a datagram from an
abstract remote address with a payload length, or a failure. -/
inductive UDPEvent where
  | datagram (addr : Nat) (len : Nat)
  | fail (e : SipError)
deriving DecidableEq, Repr

/-- How a transport loop ended: the error packages it pushed onto the
request channel before returning, and the listener and socket state after
the deferred `Close` ran. -/
structure LoopExit where
  pushed : List requestPackage
  listener : Listener
  sockets : Sockets
deriving Repr

/-- `handleTCPListening` against a finite schedule of accept outcomes.
`none` means every outcome was a connection and the loop is still blocked in
`Accept`.  On a failure: if the listener is closed, return silently; else
push one error package and return.  Either way the deferred `Close` runs.
(`registerTCPConn`, which wraps the socket and starts its read path, is not
part of the source under verification and contributes nothing here.) -/
def handleTCPListening (l : Listener) (s : Sockets) :
    List TCPEvent → Option LoopExit
  | [] => none
  | .conn _ :: rest => handleTCPListening l s rest
  | .fail e :: _ =>
    if l.closed then
      some { pushed := [], listener := (Close l s).2.1, sockets := (Close l s).2.2 }
    else
      some { pushed := [⟨none, none, some e⟩]
             listener := (Close l s).2.1
             sockets := (Close l s).2.2 }

/-- `handleUDPListening` against a finite schedule of receive outcomes; same
termination shape as the TCP loop.  (`getUDPConnFromPool` and
`writeReceivedUDP`, which route the datagram, are not part of the source
under verification and contribute nothing here.) -/
def handleUDPListening (l : Listener) (s : Sockets) :
    List UDPEvent → Option LoopExit
  | [] => none
  | .datagram _ _ :: rest => handleUDPListening l s rest
  | .fail e :: _ =>
    if l.closed then
      some { pushed := [], listener := (Close l s).2.1, sockets := (Close l s).2.2 }
    else
      some { pushed := [⟨none, none, some e⟩]
             listener := (Close l s).2.1
             sockets := (Close l s).2.2 }

/-- Both transports torn down: the closed flag set and both sockets closed. -/
def tornDown (ex : LoopExit) : Prop :=
  ex.listener.closed = true ∧ ex.sockets.tcpOpen = false ∧
    ex.sockets.udpOpen = false

/-! ### Helper lemmas -/

theorem sweepAll_cons (t : Nat) (ts : List Nat) (bs : List (String × Nat)) :
    sweepAll (t :: ts) bs = sweepAll ts (sweep t bs) := rfl

theorem runEvents_ticks (codec : Codec) (ts : List Nat) (evs : List Event)
    (bs : List (String × Nat)) :
    runEvents codec (ts.map .tick ++ evs) bs =
      runEvents codec evs (sweepAll ts bs) := by
  induction ts generalizing bs with
  | nil => rfl
  | cons t ts ih =>
      simp only [List.map_cons, List.cons_append, runEvents, sweepAll_cons]
      exact ih (sweep t bs)

theorem sweep_cons_keep (now : Nat) (x : String × Nat) (bs : List (String × Nat))
    (h : now - x.2 ≤ 30) :
    sweep now (x :: bs) = x :: sweep now bs := by
  simp only [sweep, List.filter_cons]
  simp only [decide_eq_true_eq]
  rw [if_pos h]

theorem sweep_cons_drop (now : Nat) (x : String × Nat) (bs : List (String × Nat))
    (h : ¬ now - x.2 ≤ 30) :
    sweep now (x :: bs) = sweep now bs := by
  simp only [sweep, List.filter_cons]
  simp only [decide_eq_true_eq]
  rw [if_neg h]

theorem sweepAll_cons_keep (ts : List Nat) (x : String × Nat)
    (bs : List (String × Nat)) (h : ∀ s ∈ ts, s - x.2 ≤ 30) :
    sweepAll ts (x :: bs) = x :: sweepAll ts bs := by
  induction ts generalizing bs with
  | nil => rfl
  | cons t ts ih =>
      rw [sweepAll_cons, sweep_cons_keep t x bs (h t (List.mem_cons_self t ts)),
        ih (sweep t bs) (fun s hs => h s (List.mem_cons_of_mem t hs)), sweepAll_cons]

theorem find?_sweep_none (q : String × Nat → Bool) (now : Nat)
    (bs : List (String × Nat)) (h : bs.find? q = none) :
    (sweep now bs).find? q = none := by
  rw [List.find?_eq_none] at h ⊢
  exact fun x hx => h x (List.mem_of_mem_filter hx)

theorem find?_sweepAll_none (q : String × Nat → Bool) (ts : List Nat)
    (bs : List (String × Nat)) (h : bs.find? q = none) :
    (sweepAll ts bs).find? q = none := by
  induction ts generalizing bs with
  | nil => exact h
  | cons t ts ih => rw [sweepAll_cons]; exact ih _ (find?_sweep_none q t bs h)

theorem find?_sweepAll_dropped (ts : List Nat) (B : String) (t1 : Nat)
    (bs : List (String × Nat))
    (hbs : bs.find? (fun p => p.1 == B) = none)
    (hex : ∃ s ∈ ts, 30 < s - t1) :
    (sweepAll ts ((B, t1) :: bs)).find? (fun p => p.1 == B) = none := by
  induction ts generalizing bs with
  | nil =>
      obtain ⟨s, hs, _⟩ := hex
      exact absurd hs (List.not_mem_nil s)
  | cons t ts ih =>
      rw [sweepAll_cons]
      by_cases h : t - t1 ≤ 30
      · rw [sweep_cons_keep t (B, t1) bs h]
        obtain ⟨s, hs, h30⟩ := hex
        rcases List.mem_cons.mp hs with rfl | hs'
        · omega
        · exact ih (sweep t bs) (find?_sweep_none _ t bs hbs) ⟨s, hs', h30⟩
      · rw [sweep_cons_drop t (B, t1) bs h]
        exact find?_sweepAll_none _ ts _ (find?_sweep_none _ t bs hbs)

theorem acceptLoop_deliver (codec : Codec) (now : Nat) (r : Request)
    (c : Option Nat) (via : Via) (rest : List requestPackage)
    (bs : List (String × Nat))
    (hp : codec.parseVia (r.headerGet "Via") = .ok via)
    (hvalid : branchInvalid (argsGet via.arguments "branch") = false)
    (hnew : bs.find? (fun p => p.1 == argsGet via.arguments "branch") = none) :
    acceptLoop codec now false (⟨c, some r, none⟩ :: rest) bs =
      (.ret (some r) c none, rest, (argsGet via.arguments "branch", now) :: bs) := by
  simp [acceptLoop, hp, hvalid, hnew]

theorem acceptLoop_suppress (codec : Codec) (now : Nat) (r : Request)
    (c : Option Nat) (via : Via) (rest : List requestPackage)
    (bs : List (String × Nat))
    (hp : codec.parseVia (r.headerGet "Via") = .ok via)
    (hvalid : branchInvalid (argsGet via.arguments "branch") = false)
    (hfound : (bs.find? (fun p =>
      p.1 == argsGet via.arguments "branch")).isSome = true) :
    acceptLoop codec now false (⟨c, some r, none⟩ :: rest) bs =
      acceptLoop codec now false rest bs := by
  simp [acceptLoop, hp, hvalid, hfound]

theorem specCodec_error (s : String) (e : SipError)
    (h : specCodec.parseVia s = .error e) : e = .errInvalidBranch := by
  have hdef : specCodec.parseVia s =
      (if s == "" then Except.error SipError.errInvalidBranch
       else Except.ok { arguments := parseArgs s }) := rfl
  rw [hdef] at h
  by_cases hs : (s == "") = true
  · rw [if_pos hs] at h
    injection h with h2
    exact h2.symm
  · rw [if_neg hs] at h
    exact Except.noConfusion h

theorem Close_listener (l : Listener) (s : Sockets) :
    (Close l s).2.1 = { l with closed := true, requestChannel := [] } := by
  unfold Close closeTCP closeUDP
  obtain ⟨tco, uo, te, ue⟩ := s
  cases tco <;> cases uo <;> cases te <;> cases ue <;> rfl

theorem Close_sockets (l : Listener) (s : Sockets) :
    (Close l s).2.2.tcpOpen = false ∧ (Close l s).2.2.udpOpen = false := by
  unfold Close closeTCP closeUDP
  obtain ⟨tco, uo, te, ue⟩ := s
  cases tco <;> cases uo <;> cases te <;> cases ue <;> exact ⟨rfl, rfl⟩

/-! ### Claims -/

/-- C1: For every branch identifier that arrives twice within the 30-second
retention window, the consumption operation returns the associated request
to the caller exactly once: the first arrival is delivered with no error,
and when the retransmission arrives — after any schedule of janitor sweeps
lying between the two arrival instants — the `AcceptRequest` call finds the
branch recorded, discards the package silently inside its loop and resumes
waiting (`blocked`), without returning it to the caller. -/
theorem accept_duplicate_within_window_once
    (codec : Codec) (r r2 : Request) (c c2 : Option Nat) (via via2 : Via)
    (bs : List (String × Nat)) (ts : List Nat) (t1 t2 : Nat)
    (hp1 : codec.parseVia (r.headerGet "Via") = .ok via)
    (hp2 : codec.parseVia (r2.headerGet "Via") = .ok via2)
    (hb : argsGet via2.arguments "branch" = argsGet via.arguments "branch")
    (hvalid : branchInvalid (argsGet via.arguments "branch") = false)
    (hnew : bs.find? (fun p => p.1 == argsGet via.arguments "branch") = none)
    (hts : ∀ s ∈ ts, t1 ≤ s ∧ s ≤ t2) (hgap : t2 ≤ t1 + 30) :
    (runEvents codec
        (.arrive t1 ⟨c, some r, none⟩ ::
          (ts.map .tick ++ [.arrive t2 ⟨c2, some r2, none⟩])) bs).2 =
      [(t1, .ret (some r) c none), (t2, .blocked)] := by
  have h1 := acceptLoop_deliver codec t1 r c via [] bs hp1 hvalid hnew
  have hkeep : sweepAll ts ((argsGet via.arguments "branch", t1) :: bs)
      = (argsGet via.arguments "branch", t1) :: sweepAll ts bs :=
    sweepAll_cons_keep ts _ bs (fun s hs => by have := hts s hs; omega)
  have hvalid2 : branchInvalid (argsGet via2.arguments "branch") = false := by
    rw [hb]; exact hvalid
  have hfound : (((argsGet via.arguments "branch", t1) :: sweepAll ts bs).find?
      (fun p => p.1 == argsGet via2.arguments "branch")).isSome = true := by
    rw [hb]; simp [List.find?]
  have h2 := acceptLoop_suppress codec t2 r2 c2 via2 []
    ((argsGet via.arguments "branch", t1) :: sweepAll ts bs) hp2 hvalid2 hfound
  simp only [runEvents, h1, runEvents_ticks, hkeep]
  rw [h2]
  simp [acceptLoop, runEvents]

/-- Witness for C1: the request with branch `z9hG4bK-abc123` arrives at
times 5 and 35 with janitor sweeps at 10, 20 and 30 in between; it is
delivered once and the retransmission is silently dropped. -/
theorem accept_duplicate_within_window_once_witness :
    (runEvents specCodec
        (.arrive 5 ⟨some 0, some rB, none⟩ ::
          ([10, 20, 30].map .tick ++ [.arrive 35 ⟨some 0, some rB, none⟩])) []).2 =
      [(5, .ret (some rB) (some 0) none), (35, .blocked)] :=
  accept_duplicate_within_window_once specCodec rB rB (some 0) (some 0)
    viaB viaB [] [10, 20, 30] 5 35 rfl rfl rfl (by decide) rfl
    (by decide) (by decide)

/-- C2 counterexample: the branch of `rB` is recorded at time 5.  The
janitor, which wakes every 10 seconds, sweeps at times 10, 20 and 30, when
the entry is at most 25 seconds old, so it survives; the janitor does not
wake again before time 40.  The retransmission arrives at time 36 — a real
gap of 31 > 30 seconds — yet it is suppressed (`blocked`) instead of being
returned a second time, so an entry older than the retention window is used
to suppress a new arrival. -/
theorem expired_entry_still_suppresses_gap31 :
    30 < 36 - 5 ∧
    (runEvents specCodec
        [.arrive 5 pkgB, .tick 10, .tick 20, .tick 30, .arrive 36 pkgB] []).2 =
      [(5, .ret (some rB) (some 0) none), (36, .blocked)] :=
  ⟨by decide, by decide⟩

/-- C2 (amended): a duplicate-suppression cache entry is not used to
suppress a new arrival once a janitor sweep has run at a time when the
entry's age exceeded the retention window (30 time units): whenever some
sweep between the two arrivals happens more than 30 units after the first
arrival, the consumption operation returns the request both times.  Since
the janitor wakes every 10 units, this is guaranteed for a gap exceeding
40 units, but — as the counterexample shows — not for every gap merely
exceeding 30. -/
theorem accept_after_expired_sweep_delivered_twice
    (codec : Codec) (r r2 : Request) (c c2 : Option Nat) (via via2 : Via)
    (bs : List (String × Nat)) (ts : List Nat) (t1 t2 : Nat)
    (hp1 : codec.parseVia (r.headerGet "Via") = .ok via)
    (hp2 : codec.parseVia (r2.headerGet "Via") = .ok via2)
    (hb : argsGet via2.arguments "branch" = argsGet via.arguments "branch")
    (hvalid : branchInvalid (argsGet via.arguments "branch") = false)
    (hnew : bs.find? (fun p => p.1 == argsGet via.arguments "branch") = none)
    (hswept : ∃ s ∈ ts, 30 < s - t1) :
    (runEvents codec
        (.arrive t1 ⟨c, some r, none⟩ ::
          (ts.map .tick ++ [.arrive t2 ⟨c2, some r2, none⟩])) bs).2 =
      [(t1, .ret (some r) c none), (t2, .ret (some r2) c2 none)] := by
  have h1 := acceptLoop_deliver codec t1 r c via [] bs hp1 hvalid hnew
  have hvalid2 : branchInvalid (argsGet via2.arguments "branch") = false := by
    rw [hb]; exact hvalid
  have hnew2 : (sweepAll ts ((argsGet via.arguments "branch", t1) :: bs)).find?
      (fun p => p.1 == argsGet via2.arguments "branch") = none := by
    rw [hb]; exact find?_sweepAll_dropped ts _ t1 bs hnew hswept
  have h2 := acceptLoop_deliver codec t2 r2 c2 via2 []
    (sweepAll ts ((argsGet via.arguments "branch", t1) :: bs)) hp2 hvalid2 hnew2
  simp only [runEvents, h1, runEvents_ticks]
  rw [h2]

/-- Witness for C2 (amended): arrivals at times 5 and 46, with janitor
sweeps at 10, 20, 30 and 40; the sweep at 40 sees the entry 35 > 30
seconds old and deletes it, so the request is delivered both times. -/
theorem accept_after_expired_sweep_delivered_twice_witness :
    (runEvents specCodec
        (.arrive 5 ⟨some 0, some rB, none⟩ ::
          ([10, 20, 30, 40].map .tick ++ [.arrive 46 ⟨some 0, some rB, none⟩])) []).2 =
      [(5, .ret (some rB) (some 0) none), (46, .ret (some rB) (some 0) none)] :=
  accept_after_expired_sweep_delivered_twice specCodec rB rB (some 0) (some 0)
    viaB viaB [] [10, 20, 30, 40] 5 46 rfl rfl rfl (by decide) rfl
    ⟨40, by decide, by decide⟩

/-- C3: a successfully delivered request whose Via header is missing or
malformed, or whose branch argument is absent, shorter than 8 characters,
or does not begin with the magic cookie `z9hG4bK`, is returned together
with its connection and the invalid-branch error, and the
duplicate-suppression cache is left untouched.  (`ParseVia` is modelled
from the spec as `specCodec`; the spec specifies that its failure is
surfaced as the same invalid-branch failure.) -/
theorem invalid_branch_returned_with_error_uncached
    (r : Request) (c : Option Nat) (rest : List requestPackage)
    (bs : List (String × Nat)) (now : Nat)
    (hinv : invalidBranchReq specCodec r = true) :
    acceptLoop specCodec now false (⟨c, some r, none⟩ :: rest) bs =
      (.ret (some r) c (some .errInvalidBranch), rest, bs) := by
  have hin := hinv
  unfold invalidBranchReq at hin
  cases hpv : specCodec.parseVia (r.headerGet "Via") with
  | error e =>
      have he : e = .errInvalidBranch := specCodec_error _ e hpv
      subst he
      simp [acceptLoop, hpv]
  | ok via =>
      rw [hpv] at hin
      dsimp only at hin
      simp [acceptLoop, hpv, hin]

/-- Witness for C3: a request with no Via header at all is returned with
its connection and the invalid-branch error, and the cache — here a cache
already holding another branch — is unchanged. -/
theorem invalid_branch_returned_with_error_uncached_witness :
    acceptLoop specCodec 9 false [⟨some 3, some rNoVia, none⟩]
        [("z9hG4bK-other", 2)] =
      (.ret (some rNoVia) (some 3) (some .errInvalidBranch), [],
        [("z9hG4bK-other", 2)]) :=
  invalid_branch_returned_with_error_uncached rNoVia (some 3) []
    [("z9hG4bK-other", 2)] 9 (by decide)

/-- C10: when the consumption operation suppresses a duplicate, the
duplicate-suppression cache is left completely unchanged — the loop simply
moves on to the rest of the queue, and a call that ends after the
suppression leaves exactly the cache it started with, so the stored
timestamp of the branch is not refreshed. -/
theorem duplicate_suppression_cache_frame
    (codec : Codec) (now : Nat) (r : Request) (c : Option Nat) (via : Via)
    (rest : List requestPackage) (bs : List (String × Nat))
    (hp : codec.parseVia (r.headerGet "Via") = .ok via)
    (hvalid : branchInvalid (argsGet via.arguments "branch") = false)
    (hfound : (bs.find? (fun p =>
      p.1 == argsGet via.arguments "branch")).isSome = true) :
    acceptLoop codec now false (⟨c, some r, none⟩ :: rest) bs =
      acceptLoop codec now false rest bs ∧
    (acceptLoop codec now false [⟨c, some r, none⟩] bs).2.2 = bs := by
  constructor
  · exact acceptLoop_suppress codec now r c via rest bs hp hvalid hfound
  · rw [acceptLoop_suppress codec now r c via [] bs hp hvalid hfound]
    rfl

/-- Witness for C10: suppressing a retransmission of `rB` against a cache
holding its branch with timestamp 4 leaves the cache — timestamp included —
exactly as it was. -/
theorem duplicate_suppression_cache_frame_witness :
    acceptLoop specCodec 21 false [⟨some 0, some rB, none⟩]
        [("z9hG4bK-abc123", 4)] =
      acceptLoop specCodec 21 false [] [("z9hG4bK-abc123", 4)] ∧
    (acceptLoop specCodec 21 false [⟨some 0, some rB, none⟩]
        [("z9hG4bK-abc123", 4)]).2.2 = [("z9hG4bK-abc123", 4)] :=
  duplicate_suppression_cache_frame specCodec 21 rB (some 0) viaB []
    [("z9hG4bK-abc123", 4)] rfl (by decide) (by decide)

/-- C4: a listener returned by a successful `Listen` has its `udpPool` and
`udpPoolMutex` fields unset (Go nil): `Listen` initializes only the sockets,
the closed flag, the request channel, the branch cache and its mutex. -/
theorem listen_leaves_udp_pool_unset (env : NetEnv) (l : Listener)
    (h : Listen env = .ok l) :
    l.udpPool = none ∧ l.udpPoolMutex = none ∧ l.closed = false ∧
      l.requestChannel = [] ∧ l.receivedBranches = [] ∧
      l.branchMutex = some () := by
  unfold Listen at h
  cases htcp : env.tcpListen with
  | error e => rw [htcp] at h; exact Except.noConfusion h
  | ok tcp =>
      rw [htcp] at h
      cases hres : env.resolveUDPAddr with
      | error e => rw [hres] at h; exact Except.noConfusion h
      | ok a =>
          rw [hres] at h
          cases hudp : env.listenUDP with
          | error e => rw [hudp] at h; exact Except.noConfusion h
          | ok udp =>
              rw [hudp] at h
              injection h with h2
              subst h2
              exact ⟨rfl, rfl, rfl, rfl, rfl, rfl⟩

/-- Witness for C4: binding in an environment where all three system calls
succeed yields exactly the fresh listener `l0`, whose pool fields are nil. -/
theorem listen_leaves_udp_pool_unset_witness :
    l0.udpPool = none ∧ l0.udpPoolMutex = none ∧ l0.closed = false ∧
      l0.requestChannel = [] ∧ l0.receivedBranches = [] ∧
      l0.branchMutex = some () :=
  listen_leaves_udp_pool_unset env0 l0 rfl

/-- C5 fails on the code: `Close` has no one-time-effect guard.  On a
freshly bound listener whose sockets close cleanly, the first `Close`
returns nil, but a second `Close` closes both sockets again and propagates
the already-closed-connection error the `net` package reports — a spurious
error from a repeated close, contradicting the required idempotence. -/
theorem close_second_call_returns_spurious_error :
    (Close l0 s0).1 = none ∧
    (Close (Close l0 s0).2.1 (Close l0 s0).2.2).1 = some .errUseClosed :=
  ⟨rfl, rfl⟩

/-- C6: after `Close` completes, every call to `AcceptRequest` returns the
closed-resource error immediately — the closed flag is checked before the
channel receive, so the call does not block and leaves the listener
unchanged. -/
theorem accept_after_close_errclosed (codec : Codec) (now : Nat)
    (l : Listener) (s : Sockets) :
    AcceptRequest codec now (Close l s).2.1 =
      (.ret none none (some .errClosed), (Close l s).2.1) := by
  rw [Close_listener]
  simp [AcceptRequest, acceptLoop]

/-- C7: whenever either transport loop terminates — silently because the
listener was closing, or after a transport failure — its deferred
`Close` call runs, so the closed flag is set and both sockets, hence the
other transport as well, are torn down. -/
theorem transport_loop_exit_invokes_close (l : Listener) (s : Sockets)
    (tevs : List TCPEvent) (uevs : List UDPEvent) :
    (∀ ex, handleTCPListening l s tevs = some ex → tornDown ex) ∧
    (∀ ex, handleUDPListening l s uevs = some ex → tornDown ex) := by
  constructor
  · intro ex
    induction tevs with
    | nil => intro hex; exact Option.noConfusion hex
    | cons ev rest ih =>
        cases ev with
        | conn c => intro hex; exact ih hex
        | fail e =>
            intro hex
            unfold handleTCPListening at hex
            by_cases hc : l.closed = true
            · rw [if_pos hc] at hex
              injection hex with h2
              subst h2
              exact ⟨by rw [Close_listener], (Close_sockets l s).1,
                (Close_sockets l s).2⟩
            · rw [if_neg hc] at hex
              injection hex with h2
              subst h2
              exact ⟨by rw [Close_listener], (Close_sockets l s).1,
                (Close_sockets l s).2⟩
  · intro ex
    induction uevs with
    | nil => intro hex; exact Option.noConfusion hex
    | cons ev rest ih =>
        cases ev with
        | datagram a n => intro hex; exact ih hex
        | fail e =>
            intro hex
            unfold handleUDPListening at hex
            by_cases hc : l.closed = true
            · rw [if_pos hc] at hex
              injection hex with h2
              subst h2
              exact ⟨by rw [Close_listener], (Close_sockets l s).1,
                (Close_sockets l s).2⟩
            · rw [if_neg hc] at hex
              injection hex with h2
              subst h2
              exact ⟨by rw [Close_listener], (Close_sockets l s).1,
                (Close_sockets l s).2⟩

/-- Witness for C7: a TCP accept failure and a UDP receive failure on the
fresh listener both end with the listener closed and both sockets released. -/
theorem transport_loop_exit_invokes_close_witness :
    tornDown { pushed := [⟨none, none, some (.errTransport 0)⟩]
               listener := (Close l0 s0).2.1
               sockets := (Close l0 s0).2.2 } ∧
    tornDown { pushed := [⟨none, none, some (.errTransport 1)⟩]
               listener := (Close l0 s0).2.1
               sockets := (Close l0 s0).2.2 } :=
  ⟨(transport_loop_exit_invokes_close l0 s0 [.fail (.errTransport 0)]
      [.fail (.errTransport 1)]).1 _ rfl,
   (transport_loop_exit_invokes_close l0 s0 [.fail (.errTransport 0)]
      [.fail (.errTransport 1)]).2 _ rfl⟩

/-- C8: a transport loop that hits an accept/receive failure — after any
number of successful iterations — terminates at that failure no matter what
outcomes would have followed (the failed call is never retried); it pushes
nothing when the listener was already closed and exactly one error package
`(nil, nil, err)` otherwise. -/
theorem transport_failure_single_push_no_retry (l : Listener) (s : Sockets)
    (cs : List Nat) (ds : List (Nat × Nat)) (e eu : SipError)
    (restT : List TCPEvent) (restU : List UDPEvent) :
    handleTCPListening l s (cs.map .conn ++ .fail e :: restT) =
      some { pushed := if l.closed then [] else [⟨none, none, some e⟩]
             listener := (Close l s).2.1
             sockets := (Close l s).2.2 } ∧
    handleUDPListening l s
        (ds.map (fun p => .datagram p.1 p.2) ++ .fail eu :: restU) =
      some { pushed := if l.closed then [] else [⟨none, none, some eu⟩]
             listener := (Close l s).2.1
             sockets := (Close l s).2.2 } := by
  constructor
  · induction cs with
    | nil =>
        simp only [List.map_nil, List.nil_append]
        unfold handleTCPListening
        by_cases hc : l.closed = true
        · rw [if_pos hc, if_pos hc]
        · rw [if_neg hc, if_neg hc]
    | cons c cs ih => exact ih
  · induction ds with
    | nil =>
        simp only [List.map_nil, List.nil_append]
        unfold handleUDPListening
        by_cases hc : l.closed = true
        · rw [if_pos hc, if_pos hc]
        · rw [if_neg hc, if_neg hc]
    | cons d ds ih => exact ih

/-- C9: `Close` on open sockets attempts to close both of them even when
the TCP close fails, and returns the first non-nil error: the TCP close
error when there is one, otherwise the UDP close error. -/
theorem close_attempts_both_returns_first_error (l : Listener) (s : Sockets)
    (ht : s.tcpOpen = true) (hu : s.udpOpen = true) :
    (Close l s).1 = (match s.tcpCloseErr with
      | some e => some e
      | none => s.udpCloseErr) ∧
    (Close l s).2.2.tcpOpen = false ∧ (Close l s).2.2.udpOpen = false := by
  obtain ⟨tco, uo, te, ue⟩ := s
  dsimp only at ht hu
  subst ht
  subst hu
  cases te <;> cases ue <;> exact ⟨rfl, rfl, rfl⟩

/-- Witness for C9: when both socket closes fail, both sockets are still
released and the TCP error is the one returned. -/
theorem close_attempts_both_returns_first_error_witness :
    (Close l0 sBothFail).1 = some (.errTransport 7) ∧
    (Close l0 sBothFail).2.2.tcpOpen = false ∧
    (Close l0 sBothFail).2.2.udpOpen = false :=
  close_attempts_both_returns_first_error l0 sBothFail rfl rfl

end Sipnet
